import Mathlib

/-!
Verification of the 2D grid component (`src/matrix.rs`).

The Rust type `Matrix<T>` stores its elements in a flat vector `data`
together with the two dimensions `rows` and `cols`; a coordinate
`(row, col)` is linearized as `cols * row + col` (row-major layout).
We embed the structure and each of its operations shallowly:

  * `Matrix.with_val`  embeds `Matrix::with_val` (fill constructor);
  * `Matrix.new_mat`   embeds `Matrix::new` (default-fill constructor,
    with the `Default` bound rendered as an `Inhabited` instance);
  * `Matrix.rows_fn`, `Matrix.cols_fn`, `Matrix.size` embed the three
    dimension queries;
  * `Matrix.get` embeds `Matrix::get`: it delegates the bounds check to
    `Vec::get` on the linearized index, embedded here as `List.get?`;
  * `Matrix.get_mut` embeds the presence condition of `Matrix::get_mut`
    (which addresses exactly the same linear position as `get`);
  * `Matrix.set` embeds `Matrix::set`, returning the Rust result value
    together with the matrix state after the call (Rust mutates in
    place; the error path returns early and leaves the state untouched);
  * `Matrix.write_mut` embeds writing through a reference obtained from
    `Matrix::get_mut` when that reference is present;
  * `Matrix.index_at` embeds the `Index` trait implementation as a total
    function: `none` is the panic of `Vec`'s indexing operator on an
    out-of-range linear index, `some x` is the returned reference.
-/

namespace Thal

structure Matrix (α : Type) where
  data : List α
  rows : Nat
  cols : Nat
  deriving DecidableEq

variable {α : Type}

/-- Embeds `Matrix::with_val`: `vec![val; rows * cols]` with the given
dimensions. -/
def Matrix.with_val (rows cols : Nat) (val : α) : Matrix α :=
  { data := List.replicate (rows * cols) val, rows := rows, cols := cols }

/-- Embeds `Matrix::rows`. -/
def Matrix.rows_fn (m : Matrix α) : Nat :=
  m.rows

/-- Embeds `Matrix::cols`. -/
def Matrix.cols_fn (m : Matrix α) : Nat :=
  m.cols

/-- Embeds `Matrix::size`: the length of the backing vector. -/
def Matrix.size (m : Matrix α) : Nat :=
  m.data.length

/-- Embeds `Matrix::get`: `self.data.get((self.cols * coord.0) + coord.1)`.
The only bounds check is the one `Vec::get` performs on the linearized
index. -/
def Matrix.get (m : Matrix α) (coord : Nat × Nat) : Option α :=
  m.data.get? (m.cols * coord.1 + coord.2)

/-- Embeds `Matrix::get_mut`: same linear position and same presence
condition as `Matrix::get`; the value carried by `some` is the element
the mutable reference points at. -/
def Matrix.get_mut (m : Matrix α) (coord : Nat × Nat) : Option α :=
  m.data.get? (m.cols * coord.1 + coord.2)

/-- Embeds `Matrix::set`: match on `get_mut`; on `None` return
`Err("Invalid Index")` leaving the matrix unchanged, on `Some` write the
new value through the reference (update the linear position) and return
`Ok(())`.  The pair is (returned result, matrix state after the call). -/
def Matrix.set (m : Matrix α) (coord : Nat × Nat) (new_val : α) :
    Except String Unit × Matrix α :=
  match m.get_mut coord with
  | some _ =>
      (Except.ok (),
        { m with data := m.data.set (m.cols * coord.1 + coord.2) new_val })
  | none => (Except.error "Invalid Index", m)

/-- Embeds obtaining a mutable reference with `Matrix::get_mut` and, when
it is present, assigning `new_val` through it; when the reference is
absent nothing happens. -/
def Matrix.write_mut (m : Matrix α) (coord : Nat × Nat) (new_val : α) :
    Matrix α :=
  match m.get_mut coord with
  | some _ =>
      { m with data := m.data.set (m.cols * coord.1 + coord.2) new_val }
  | none => m

/-- Embeds `impl Index for Matrix`: `&self.data[(self.cols * coord.0) + coord.1]`.
`Vec`'s indexing operator panics exactly when the linear index is out of
range of the vector; the panic is embedded as `none`. -/
def Matrix.index_at (m : Matrix α) (coord : Nat × Nat) : Option α :=
  m.data.get? (m.cols * coord.1 + coord.2)

/-- Embeds `Matrix::new`: `vec![T::default(); rows * cols]` with the given
dimensions. -/
def Matrix.new_mat (rows cols : Nat) [Inhabited α] : Matrix α :=
  { data := List.replicate (rows * cols) (default : α), rows := rows,
    cols := cols }

/-- A single mutation step on a matrix: either a call to `set` or a write
through a reference obtained from `get_mut`. -/
inductive MutOp (α : Type) where
  | setOp : Nat × Nat → α → MutOp α
  | mutOp : Nat × Nat → α → MutOp α

/-- Run one mutation step.  A failing `set` leaves the state as the code
does: untouched. -/
def Matrix.applyOp (m : Matrix α) (op : MutOp α) : Matrix α :=
  match op with
  | MutOp.setOp coord v => (m.set coord v).2
  | MutOp.mutOp coord v => m.write_mut coord v

/-- Run a sequence of mutation steps. -/
def Matrix.runOps (m : Matrix α) (ops : List (MutOp α)) : Matrix α :=
  List.foldl Matrix.applyOp m ops

theorem linear_lt_of_bounds {r rows c cols : Nat} (hr : r < rows)
    (hc : c < cols) : cols * r + c < rows * cols := by
  calc cols * r + c < cols * r + cols := by omega
    _ = cols * (r + 1) := by ring
    _ ≤ cols * rows := Nat.mul_le_mul_left cols hr
    _ = rows * cols := Nat.mul_comm cols rows

theorem get?_isSome_of_lt {l : List α} {n : Nat} (h : n < l.length) :
    (l.get? n).isSome = true := by
  simp [List.get?_eq_getElem?, List.getElem?_eq_getElem h]

theorem applyOp_rows (m : Matrix α) (op : MutOp α) :
    (m.applyOp op).rows = m.rows := by
  cases op with
  | setOp coord v =>
      simp only [Matrix.applyOp, Matrix.set]
      cases m.get_mut coord <;> rfl
  | mutOp coord v =>
      simp only [Matrix.applyOp, Matrix.write_mut]
      cases m.get_mut coord <;> rfl

theorem applyOp_cols (m : Matrix α) (op : MutOp α) :
    (m.applyOp op).cols = m.cols := by
  cases op with
  | setOp coord v =>
      simp only [Matrix.applyOp, Matrix.set]
      cases m.get_mut coord <;> rfl
  | mutOp coord v =>
      simp only [Matrix.applyOp, Matrix.write_mut]
      cases m.get_mut coord <;> rfl

theorem applyOp_length (m : Matrix α) (op : MutOp α) :
    (m.applyOp op).data.length = m.data.length := by
  cases op with
  | setOp coord v =>
      simp only [Matrix.applyOp, Matrix.set]
      cases m.get_mut coord <;> simp [List.length_set]
  | mutOp coord v =>
      simp only [Matrix.applyOp, Matrix.write_mut]
      cases m.get_mut coord <;> simp [List.length_set]

theorem runOps_dims_length (ops : List (MutOp α)) (m : Matrix α) :
    (m.runOps ops).rows = m.rows ∧ (m.runOps ops).cols = m.cols ∧
      (m.runOps ops).data.length = m.data.length := by
  induction ops generalizing m with
  | nil => exact ⟨rfl, rfl, rfl⟩
  | cons op ops ih =>
      have h := ih (m.applyOp op)
      refine ⟨?_, ?_, ?_⟩
      · exact (h.1).trans (applyOp_rows m op)
      · exact (h.2.1).trans (applyOp_cols m op)
      · exact (h.2.2).trans (applyOp_length m op)

theorem get?_isSome_iff {l : List α} {n : Nat} :
    (l.get? n).isSome = true ↔ n < l.length := by
  constructor
  · intro hs
    by_contra hlt
    rw [List.get?_eq_none.mpr (Nat.le_of_not_lt hlt)] at hs
    simp at hs
  · exact get?_isSome_of_lt

theorem set_hits_linear (m : Matrix α) (r c : Nat) (v : α)
    (hidx : m.cols * r + c < m.data.length) :
    (m.set (r, c) v).1 = Except.ok () ∧
      (m.set (r, c) v).2.data.get? (m.cols * r + c) = some v ∧
      (m.set (r, c) v).2.rows = m.rows ∧ (m.set (r, c) v).2.cols = m.cols := by
  have hsome : (m.get_mut (r, c)).isSome = true := get?_isSome_of_lt hidx
  cases hmu : m.get_mut (r, c) with
  | none => rw [hmu] at hsome; simp at hsome
  | some x =>
      have hget : m.data.get? (m.cols * r + c) = some x := hmu
      refine ⟨?_, ?_, ?_, ?_⟩ <;> simp only [Matrix.set, hmu]
      rw [List.get?_set_eq, hget]
      rfl

end Thal

namespace Thal

/-- C1: on a 10×10 grid the safe accessor `get` returns a present value at
coordinate (0, 15) even though the column index 15 is not below
cols = 10: the code checks only the linearized index against the storage
length, never row and col independently, so the present value aliases
into row 1. -/
theorem c1_get_col_overflow_eval :
    (Matrix.with_val 10 10 (0 : Nat)).get (0, 15) = some 0 ∧
      (Matrix.with_val 10 10 (0 : Nat)).cols ≤ 15 :=
  ⟨rfl, by decide⟩

/-- C2: on a 10×10 grid, `set` at coordinate (0, 15) with value 7
succeeds (returns Ok) and overwrites storage position 15 — which is
row 1, column 5 — although the column index 15 is not below cols = 10,
so set does not reject every coordinate with col ≥ cols. -/
theorem c2_set_col_overflow_eval :
    ((Matrix.with_val 10 10 (0 : Nat)).set (0, 15) 7).1 = Except.ok () ∧
      ((Matrix.with_val 10 10 (0 : Nat)).set (0, 15) 7).2.data.get? 15 =
        some 7 ∧
      (Matrix.with_val 10 10 (0 : Nat)).cols ≤ 15 :=
  ⟨rfl, rfl, by decide⟩

/-- C3: on a 10×10 grid the accessor `get_mut` is present at coordinate
(0, 15) even though the column index 15 is not below cols = 10: like
`get` it checks only the linearized index against the storage length. -/
theorem c3_get_mut_col_overflow_eval :
    (Matrix.with_val 10 10 (0 : Nat)).get_mut (0, 15) = some 0 ∧
      (Matrix.with_val 10 10 (0 : Nat)).cols ≤ 15 :=
  ⟨rfl, by decide⟩

/-- C4 counterexample: on a 10×10 grid the unchecked Index operator at
coordinate (0, 15) does not take its panic branch although
col = 15 ≥ cols = 10: it returns the element stored at linear position
15, silently reading row 1, column 5. -/
theorem c4_index_counterexample :
    (Matrix.with_val 10 10 (0 : Nat)).index_at (0, 15) = some 0 ∧
      (Matrix.with_val 10 10 (0 : Nat)).cols ≤ 15 :=
  ⟨rfl, by decide⟩

/-- C4 (amended): for a matrix satisfying the storage invariant, the
unchecked Index operator takes its panic branch exactly when the
linearized index cols*row+col is at least rows*cols, and that branch is
unreachable whenever row < rows and col < cols. -/
theorem c4_index_panic_iff (m : Matrix α) (r c : Nat)
    (h : m.data.length = m.rows * m.cols) :
    (m.index_at (r, c) = none ↔ m.rows * m.cols ≤ m.cols * r + c) ∧
      (r < m.rows → c < m.cols → (m.index_at (r, c)).isSome = true) := by
  constructor
  · simp only [Matrix.index_at]
    rw [List.get?_eq_none, h]
  · intro hr hc
    exact get?_isSome_of_lt (by rw [h]; exact linear_lt_of_bounds hr hc)

/-- C4 witness: on a 3×4 grid the in-bounds coordinate (2, 3) never hits
the panic branch. -/
theorem c4_index_panic_iff_witness :
    ((Matrix.with_val 3 4 (0 : Nat)).index_at (2, 3)).isSome = true :=
  (c4_index_panic_iff (Matrix.with_val 3 4 0) 2 3 (by decide)).2
    (by decide) (by decide)

/-- C5: after construction by `with_val` or by `new` and any sequence of
`set` / `get_mut` mutations, the storage length equals rows * cols, the
dimensions being those fixed at construction, so `size` always equals
`rows * cols`. -/
theorem c5_invariant_size [Inhabited α] (rows cols : Nat) (v : α)
    (ops ops2 : List (MutOp α)) :
    ((Matrix.with_val rows cols v).runOps ops).size =
        ((Matrix.with_val rows cols v).runOps ops).rows *
          ((Matrix.with_val rows cols v).runOps ops).cols ∧
      ((Matrix.with_val rows cols v).runOps ops).rows = rows ∧
      ((Matrix.with_val rows cols v).runOps ops).cols = cols ∧
      ((Matrix.new_mat rows cols : Matrix α).runOps ops2).size =
        ((Matrix.new_mat rows cols : Matrix α).runOps ops2).rows *
          ((Matrix.new_mat rows cols : Matrix α).runOps ops2).cols := by
  obtain ⟨h1, h2, h3⟩ := runOps_dims_length ops (Matrix.with_val rows cols v)
  obtain ⟨g1, g2, g3⟩ :=
    runOps_dims_length ops2 (Matrix.new_mat rows cols : Matrix α)
  refine ⟨?_, h1, h2, ?_⟩
  · rw [Matrix.size, h1, h2, h3]
    simp [Matrix.with_val]
  · rw [Matrix.size, g1, g2, g3]
    simp [Matrix.new_mat]

/-- C6: for a matrix satisfying the storage invariant and an in-bounds
coordinate (r, c), `set ((r, c), v)` succeeds and afterwards
`get (r, c)` returns the value v just written. -/
theorem c6_set_get_round_trip (m : Matrix α) (r c : Nat) (v : α)
    (hlen : m.data.length = m.rows * m.cols)
    (hr : r < m.rows) (hc : c < m.cols) :
    (m.set (r, c) v).1 = Except.ok () ∧
      (m.set (r, c) v).2.get (r, c) = some v := by
  have hidx : m.cols * r + c < m.data.length := by
    rw [hlen]; exact linear_lt_of_bounds hr hc
  obtain ⟨hok, hat, _, hcols⟩ := set_hits_linear m r c v hidx
  refine ⟨hok, ?_⟩
  rw [Matrix.get]
  rw [hcols]
  exact hat

/-- C6 witness: on a 10×10 grid, setting (0, 0) to 10 succeeds and a
subsequent get at (0, 0) reads back 10. -/
theorem c6_set_get_round_trip_witness :
    ((Matrix.with_val 10 10 (0 : Nat)).set (0, 0) 10).1 = Except.ok () ∧
      ((Matrix.with_val 10 10 (0 : Nat)).set (0, 0) 10).2.get (0, 0) =
        some 10 :=
  c6_set_get_round_trip (Matrix.with_val 10 10 0) 0 0 10 (by decide)
    (by decide) (by decide)

/-- C7: `with_val rows cols v` always yields size = rows * cols, keeps
the requested dimensions, and every storage position below rows * cols
holds the fill value v; this covers the degenerate cases rows = 0 or
cols = 0, where the storage is empty. -/
theorem c7_with_val_spec (rows cols : Nat) (v : α) :
    (Matrix.with_val rows cols v).size = rows * cols ∧
      (Matrix.with_val rows cols v).rows_fn = rows ∧
      (Matrix.with_val rows cols v).cols_fn = cols ∧
      ∀ i, i < rows * cols →
        (Matrix.with_val rows cols v).data.get? i = some v := by
  refine ⟨?_, rfl, rfl, ?_⟩
  · simp [Matrix.size, Matrix.with_val]
  · intro i hi
    simp [Matrix.with_val, List.get?_eq_getElem?, List.getElem?_replicate, hi]

/-- C7 witness: a 2×3 grid filled with the text value A has size 6 and
holds A at position 5; a 100×0 grid has size 0. -/
theorem c7_with_val_spec_witness :
    (Matrix.with_val 2 3 "A").size = 2 * 3 ∧
      (Matrix.with_val 2 3 "A").data.get? 5 = some "A" ∧
      (Matrix.with_val 100 0 "A").size = 100 * 0 :=
  ⟨(c7_with_val_spec 2 3 "A").1,
    (c7_with_val_spec 2 3 "A").2.2.2 5 (by decide),
    (c7_with_val_spec 100 0 "A").1⟩

/-- C8: `new rows cols` is the very same matrix as
`with_val rows cols default`: the dimensions agree, size = rows * cols,
and every storage position below rows * cols holds the default value. -/
theorem c8_new_eq_with_val [Inhabited α] (rows cols : Nat) :
    (Matrix.new_mat rows cols : Matrix α) =
        Matrix.with_val rows cols (default : α) ∧
      (Matrix.new_mat rows cols : Matrix α).size = rows * cols ∧
      (Matrix.new_mat rows cols : Matrix α).rows_fn = rows ∧
      (Matrix.new_mat rows cols : Matrix α).cols_fn = cols ∧
      ∀ i, i < rows * cols →
        (Matrix.new_mat rows cols : Matrix α).data.get? i =
          some (default : α) := by
  refine ⟨rfl, ?_, rfl, rfl, ?_⟩
  · simp [Matrix.size, Matrix.new_mat]
  · intro i hi
    simp [Matrix.new_mat, List.get?_eq_getElem?, List.getElem?_replicate, hi]

/-- C8 witness: the 10×8 default grid over Nat equals the zero-filled
10×8 grid and has size 80. -/
theorem c8_new_eq_with_val_witness :
    (Matrix.new_mat 10 8 : Matrix Nat) = Matrix.with_val 10 8 default ∧
      (Matrix.new_mat 10 8 : Matrix Nat).size = 10 * 8 :=
  ⟨(c8_new_eq_with_val 10 8).1, (c8_new_eq_with_val 10 8).2.1⟩

/-- C9: for a matrix satisfying the storage invariant, `get` is present
exactly when the linearized index cols*row+col is below rows*cols — even
when col ≥ cols, in which case the present value aliases into a later
row — it references storage position cols*row+col, and `set` at any such
coordinate succeeds and writes that aliased position. -/
theorem c9_linear_aliasing (m : Matrix α) (r c : Nat) (v : α)
    (hlen : m.data.length = m.rows * m.cols) :
    ((m.get (r, c)).isSome = true ↔ m.cols * r + c < m.rows * m.cols) ∧
      m.get (r, c) = m.data.get? (m.cols * r + c) ∧
      (m.cols * r + c < m.rows * m.cols →
        (m.set (r, c) v).1 = Except.ok () ∧
          (m.set (r, c) v).2.data.get? (m.cols * r + c) = some v) := by
  refine ⟨?_, rfl, ?_⟩
  · rw [Matrix.get, get?_isSome_iff, hlen]
  · intro hlt
    have hidx : m.cols * r + c < m.data.length := by rw [hlen]; exact hlt
    obtain ⟨hok, hat, _, _⟩ := set_hits_linear m r c v hidx
    exact ⟨hok, hat⟩

/-- C9 witness: on a 10×10 grid, get (0, 15) is present (15 < 100) and
set ((0, 15), 7) writes storage position 15. -/
theorem c9_linear_aliasing_witness :
    ((Matrix.with_val 10 10 (0 : Nat)).get (0, 15)).isSome = true ∧
      ((Matrix.with_val 10 10 (0 : Nat)).set (0, 15) 7).2.data.get? 15 =
        some 7 := by
  have h := c9_linear_aliasing (Matrix.with_val 10 10 (0 : Nat)) 0 15 7
    (by decide)
  exact ⟨h.1.mpr (by decide), (h.2.2 (by decide)).2⟩

/-- C10: whenever `set ((r, c), v)` succeeds it changes only storage
position cols*r+c: the dimensions, the storage length, and every other
storage position are the same after the call as before. -/
theorem c10_set_frame (m : Matrix α) (r c : Nat) (v : α)
    (hok : (m.set (r, c) v).1 = Except.ok ()) :
    (m.set (r, c) v).2.rows = m.rows ∧
      (m.set (r, c) v).2.cols = m.cols ∧
      (m.set (r, c) v).2.data.length = m.data.length ∧
      ∀ j, j ≠ m.cols * r + c →
        (m.set (r, c) v).2.data.get? j = m.data.get? j := by
  cases hmu : m.get_mut (r, c) with
  | none => simp [Matrix.set, hmu] at hok
  | some x =>
      refine ⟨?_, ?_, ?_, ?_⟩ <;> simp only [Matrix.set, hmu]
      · simp [List.length_set]
      · intro j hj
        exact List.get?_set_ne v m.data (fun h => hj h.symm)

/-- C10 witness: on a 2×2 grid, setting (0, 1) to 5 succeeds and leaves
storage position 0 unchanged. -/
theorem c10_set_frame_witness :
    ((Matrix.with_val 2 2 (0 : Nat)).set (0, 1) 5).2.data.get? 0 =
      (Matrix.with_val 2 2 (0 : Nat)).data.get? 0 :=
  (c10_set_frame (Matrix.with_val 2 2 (0 : Nat)) 0 1 5 rfl).2.2.2 0
    (by decide)

end Thal

